import Mathlib

/-!
# Verification of the `task_3_1` aggregation pipeline

This file gives a shallow embedding of the MongoDB aggregation pipeline in
`src/unnamed/part_000` (function `task_3_1`, lines 42-247) and proves
properties of it.

Modelling conventions:
* A BSON document is modelled by a Lean structure holding exactly the fields
  some pipeline stage reads, plus the top-level `clientWinner` field (which the
  first `$project` stage removes and a later `$match` stage and `$project`
  expression both reference).  Fields of scalar type are `Option`-valued, with
  `none` standing for an absent-or-null field; the two are distinguished (by
  the three-valued `MField`) only where a pipeline output can differ on them.
* Machine numbers are `Int` (the pipeline only compares and never computes
  arithmetic, so overflow is not a concern).
* `ObjectId` values are strings.
* The external `$sort` operator guarantees only an ascending ordering by
  the sort keys (absent-or-null keys first, then by value); the relative
  order of documents with equal sort keys is left undefined by the store.
  That contract is modelled relationally (`sortContract`); the executable
  `sortStage` is one admissible realisation of it (a stable structural
  sort), and no stability or tie-determinism beyond the contract is claimed
  of the program.  `$group` is realised with buckets emitted in first-seen
  key order, and independence from the bucket emission order is proved
  separately.
-/

/-- Three-valued field: `miss` is a field absent from a document, `nul` an
explicit BSON null, `val a` a present value.  Used where a claim depends on
the absent/null distinction. -/
inductive MField (α : Type) where
  | miss : MField α
  | nul : MField α
  | val : α → MField α
deriving DecidableEq

/-- Element of `contacts.questions.answers.loopInstances` (the fields read by
the pipeline). -/
structure LoopInstance where
  loop_instance : Option Int
  is_selected : Option Bool
  loop_text : Option String
deriving DecidableEq

/-- Element of `contacts.questions.answers`. -/
structure Answer where
  primary_answer_value : Option Int
  primary_answer_text : Option String
  criteria_value : Option Int
  loopInstances : List LoopInstance
deriving DecidableEq

/-- Element of `contacts.questions`. -/
structure Question where
  category_id : Option Int
  id : Option Int
  label : Option String
  raw_text : Option String
  criteria_value : Option Int
  answers : List Answer
deriving DecidableEq

/-- The `contacts.win_vendor` subdocument. -/
structure WinVendor where
  is_client : Option Bool
  name : Option String
  value : Option Int
deriving DecidableEq

/-- Element of `contacts.shortListedVendors` (only read by the first `$match`,
lines 54-67). -/
structure ShortListedVendor where
  name : Option String
  is_selected : Option Bool
  value : Option Int
deriving DecidableEq

/-- Element of `contacts`.  `datePublished` is only tested for being present
and non-null (line 51), so it is modelled as an `Option Int` timestamp. -/
structure Contact where
  id : Option Int
  datePublished : Option Int
  questions : List Question
  shortListedVendors : List ShortListedVendor
  win_vendor : Option WinVendor
deriving DecidableEq

/-- Root document of the `opportunities` collection.  `clientWinner` is a
top-level field referenced at lines 138 and 167; it is not in the allow-list
of the first `$project` (lines 72-88). -/
structure Opportunity where
  initiativeId : Option String
  clientWinner : Option Bool
  contacts : List Contact
deriving DecidableEq

/-- Element of the `versions` array of a `clientCriteria` document. -/
structure CriteriaVersion where
  initiativeId : Option String
  definition : Option String
deriving DecidableEq

/-- Document of the secondary `clientCriteria` collection.  `versions` is
`Option`-valued so that a document without a `versions` array is
distinguished from one with an empty array. -/
structure CriteriaDoc where
  value : Option Int
  label : Option String
  definition : Option String
  versions : Option (List CriteriaVersion)
deriving DecidableEq

/-- A database snapshot: the two collections the query touches. -/
structure DB where
  opportunities : List Opportunity
  clientCriteria : List CriteriaDoc
deriving DecidableEq

/-- The scope identifier `ObjectId("58af4da0b310d92314627290")` used at lines
48 and 195. -/
def initId : String := "58af4da0b310d92314627290"

/-- Test of `shortListedVendors` elements, lines 56-65: either a selected
vendor named ADP, or a selected vendor whose value is in the set containing 50
and below 9000. -/
def vendorMatch (v : ShortListedVendor) : Bool :=
  (v.name == some "ADP" && v.is_selected == some true) ||
  ((v.value == some 50) &&
    (match v.value with
     | some x => decide (x < 9000)
     | none => false) &&
    v.is_selected == some true)

/-- First `$match` stage, lines 46-70.  Dotted paths over arrays have the
MongoDB matching semantics: the predicate holds of the document if some
element reached along the path satisfies it; `$ne null` requires the field to
be present and non-null. -/
def matchStage1 (o : Opportunity) : Bool :=
  (o.initiativeId == some initId) &&
  (o.contacts.any fun c => c.questions.any fun q =>
    q.category_id == some 105 || q.category_id == some 147) &&
  (o.contacts.any fun c => c.datePublished.isSome) &&
  (o.contacts.any fun c => c.shortListedVendors.any vendorMatch)

/-- Document shape after the first `$project` (lines 72-88): the allow-list
keeps `contacts.id`, all `contacts.questions` subfields that later stages
read, and `contacts.win_vendor`; it drops `contacts.datePublished`,
`contacts.shortListedVendors`, and every top-level field other than `_id`
(in particular `initiativeId` and `clientWinner`). -/
structure PDoc where
  clientWinner : Option Bool
  contacts : List Contact
deriving DecidableEq

/-- Restriction of a contact to the allow-list of the first `$project`. -/
def pruneContact (c : Contact) : Contact :=
  { c with datePublished := none, shortListedVendors := [] }

/-- First `$project` stage, lines 72-88 (an inclusion projection, so the
top-level `clientWinner` is absent afterwards). -/
def projectStage1 (o : Opportunity) : PDoc :=
  { clientWinner := none, contacts := o.contacts.map pruneContact }

/-- Identity embedding of a root document, used to express the pipeline with
the first `$project` stage removed: every field (in particular the top-level
`clientWinner`) is kept. -/
def keepDoc (o : Opportunity) : PDoc :=
  { clientWinner := o.clientWinner, contacts := o.contacts }

/-- Generic `$unwind` with the source's inner semantics (no
`preserveNullAndEmptyArrays`, lines 90, 92, 125, 127, 237): each input row is
replaced by one output row per element of the array at the unwound path, in
array order; an empty or absent array yields no output row.  `get` reads the
array at the path and `set` rebuilds the row with the single element in its
place. -/
def unwindBy {ρ σ ε : Type} (get : ρ → List ε) (set : ρ → ε → σ) : List ρ → List σ
  | [] => []
  | r :: rest => (get r).map (set r) ++ unwindBy get set rest

/-- Row after `$unwind "$contacts"` (line 90): one contact per row, the
top-level fields unchanged. -/
structure RowC where
  clientWinner : Option Bool
  contact : Contact
deriving DecidableEq

/-- The `$unwind "$contacts"` stage, line 90. -/
def unwindContacts : List PDoc → List RowC :=
  unwindBy (fun d => d.contacts) (fun d c => { clientWinner := d.clientWinner, contact := c })

/-- Row after `$unwind "$contacts.questions"` (line 92).  Of the contact, only
the fields read by later stages (`id` and `win_vendor`) are carried. -/
structure RowCQ where
  clientWinner : Option Bool
  contact_id : Option Int
  win_vendor : Option WinVendor
  question : Question
deriving DecidableEq

/-- The `$unwind "$contacts.questions"` stage, line 92. -/
def unwindQuestions : List RowC → List RowCQ :=
  unwindBy (fun r => r.contact.questions)
    (fun r q =>
      { clientWinner := r.clientWinner, contact_id := r.contact.id,
        win_vendor := r.contact.win_vendor, question := q })

/-- Inner condition of the `$nor` branch, lines 101-117: a category-105
question having some answer with `primary_answer_value >= 9000` whose
`loopInstances` contain a selected instance with `loop_instance` in the value
set or `loop_text` equal to ADP. -/
def norBranch (r : RowCQ) : Bool :=
  (r.question.category_id == some 105) &&
  (r.question.answers.any fun a =>
    (match a.primary_answer_value with
     | some v => decide (9000 ≤ v)
     | none => false) &&
    (a.loopInstances.any fun li =>
      li.is_selected == some true &&
      (li.loop_instance == some 50 || li.loop_text == some "ADP")))

/-- Second `$match` stage, lines 94-123, evaluated per (contact, question)
row.  The path `contacts.questions.answers.primary_answer_value` crosses the
still-unexpanded `answers` array, so `$lt 9000` holds if SOME answer value is
below 9000. -/
def matchStage2 (r : RowCQ) : Bool :=
  (r.question.category_id == some 105 || r.question.category_id == some 147) &&
  !(norBranch r) &&
  (r.question.answers.any fun a =>
    match a.primary_answer_value with
    | some v => decide (v < 9000)
    | none => false)

/-- Row after `$unwind "$contacts.questions.answers"` (line 125).  Of the
question, only the fields read later (`category_id`, `id`, `criteria_value`)
are carried. -/
structure RowCQA where
  clientWinner : Option Bool
  contact_id : Option Int
  win_vendor : Option WinVendor
  q_category_id : Option Int
  q_id : Option Int
  q_criteria_value : Option Int
  answer : Answer
deriving DecidableEq

/-- The `$unwind "$contacts.questions.answers"` stage, line 125. -/
def unwindAnswers : List RowCQ → List RowCQA :=
  unwindBy (fun r => r.question.answers)
    (fun r a =>
      { clientWinner := r.clientWinner, contact_id := r.contact_id,
        win_vendor := r.win_vendor, q_category_id := r.question.category_id,
        q_id := r.question.id, q_criteria_value := r.question.criteria_value,
        answer := a })

/-- Row after `$unwind "$contacts.questions.answers.loopInstances"`
(line 127): a fully flattened row, one loop instance per row. -/
structure RowCQAL where
  clientWinner : Option Bool
  contact_id : Option Int
  win_vendor : Option WinVendor
  q_category_id : Option Int
  q_id : Option Int
  q_criteria_value : Option Int
  a_pav : Option Int
  a_pat : Option String
  a_criteria_value : Option Int
  loop : LoopInstance
deriving DecidableEq

/-- The `$unwind "$contacts.questions.answers.loopInstances"` stage,
line 127. -/
def unwindLoops : List RowCQA → List RowCQAL :=
  unwindBy (fun r => r.answer.loopInstances)
    (fun r li =>
      { clientWinner := r.clientWinner, contact_id := r.contact_id,
        win_vendor := r.win_vendor, q_category_id := r.q_category_id,
        q_id := r.q_id, q_criteria_value := r.q_criteria_value,
        a_pav := r.answer.primary_answer_value,
        a_pat := r.answer.primary_answer_text,
        a_criteria_value := r.answer.criteria_value, loop := li })

/-- Third `$match` stage, lines 129-146: an `$or` of (1) the loop instance
being in the value set, (2) its text being ADP, and (3) the top-level
`clientWinner` field equalling `false` for a category-147 row whose winning
vendor is in the value set or named ADP. -/
def matchStage3 (r : RowCQAL) : Bool :=
  (r.loop.loop_instance == some 50) ||
  (r.loop.loop_text == some "ADP") ||
  ((r.clientWinner == some false) &&
    (r.q_category_id == some 147) &&
    (((r.win_vendor.bind fun wv => wv.value) == some 50) ||
     ((r.win_vendor.bind fun wv => wv.name) == some "ADP")))

/-- Third `$match` stage restricted to its first two `$or` branches (the
loop-instance value test and the loop-text test). -/
def matchStage3TwoBranches (r : RowCQAL) : Bool :=
  (r.loop.loop_instance == some 50) ||
  (r.loop.loop_text == some "ADP")

/-- The aggregation `$cmp` operator restricted to booleans (BSON orders
`false < true`). -/
def aggCmpBool (a b : Bool) : Int :=
  if a == b then 0 else if a == false then -1 else 1

/-- The `competitorWinner` expression of the second `$project`, lines
161-186: `$eq [$cmp [$and [...], true], 0]`.  The path `$clientWinner` reads
the INPUT document's top-level `clientWinner` field (a `$project` expression
never sees sibling computed fields). -/
def competitorWinnerExpr (r : RowCQAL) : Bool :=
  aggCmpBool
    ((r.clientWinner == some false) &&
      ((r.loop.loop_instance == (r.win_vendor.bind fun wv => wv.value)) ||
       (r.q_category_id == some 147)))
    true == 0

/-- Row after the second `$project`, lines 148-187.  The field
`clientWinnerOut` models the OUTPUT field named `clientWinner` (computed as
`$contacts.win_vendor.is_client`), kept distinct from the input field of the
same name. -/
structure Row2 where
  contact_id : Option Int
  criteria_value : Option Int
  q_id : Option Int
  q_category_id : Option Int
  answer_pav : Option Int
  answer_pat : Option String
  answer_criteria_value : Option Int
  loop : LoopInstance
  clientWinnerOut : Option Bool
  competitorWinner : Bool
deriving DecidableEq

/-- Second `$project` stage, lines 148-187.  `criteria_value` is
`$ifNull [questions.criteria_value, answers.criteria_value]`; the whole
(already unwound) answer object is kept by `contacts.questions.answers: 1`. -/
def projectStage2 (r : RowCQAL) : Row2 :=
  { contact_id := r.contact_id,
    criteria_value :=
      match r.q_criteria_value with
      | some v => some v
      | none => r.a_criteria_value,
    q_id := r.q_id,
    q_category_id := r.q_category_id,
    answer_pav := r.a_pav,
    answer_pat := r.a_pat,
    answer_criteria_value := r.a_criteria_value,
    loop := r.loop,
    clientWinnerOut := r.win_vendor.bind fun wv => wv.is_client,
    competitorWinner := competitorWinnerExpr r }

/-- Scope restriction of the `$lookup` subpipeline, line 195: the query
`versions.initiativeId: ObjectId(...)` crosses the `versions` array, so it
holds if some version carries the scope identifier. -/
def critScopeMatch (c : CriteriaDoc) : Bool :=
  match c.versions with
  | some vs => vs.any fun v => v.initiativeId == some initId
  | none => false

/-- Inner `$project` of the `$lookup` subpipeline, lines 197-204: keeps
`value`, `label`, `definition` and `versions.definition` (dropping
`versions.initiativeId` while preserving the shape of `versions`). -/
def critProject (c : CriteriaDoc) : CriteriaDoc :=
  { value := c.value, label := c.label, definition := c.definition,
    versions := c.versions.map fun vs =>
      vs.map fun v => { initiativeId := none, definition := v.definition } }

/-- The `$lookup` subpipeline, lines 193-208: first the scope `$match`, then
the inner `$project`, then the `$expr` equality of `value` with the bound
variable `v1` (the row's `criteria_value`). -/
def lookupPipeline (ccol : List CriteriaDoc) (v1 : Option Int) : List CriteriaDoc :=
  (((ccol.filter critScopeMatch).map critProject).filter fun c => c.value == v1)

/-- Row after the `$lookup` stage, lines 189-210: the previous row plus the
`criteria` array of matches. -/
structure Row3 extends Row2 where
  criteria : List CriteriaDoc
deriving DecidableEq

/-- The `$lookup` stage, lines 189-210: every row is kept and receives the
array of matching secondary documents in `criteria`. -/
def attachCriteria (ccol : List CriteriaDoc) (r : Row2) : Row3 :=
  { toRow2 := r, criteria := lookupPipeline ccol r.criteria_value }

/-- The `text` expression of the `$push`, line 225:
`$arrayElemAt ["$criteria.label", 0]`.  The path `$criteria.label` collects
the `label` of every criteria document that has one; `$arrayElemAt` out of
range produces a MISSING value (the field is then omitted from the pushed
document), never an explicit null. -/
def lookupText (crit : List CriteriaDoc) : MField String :=
  match (crit.filterMap fun c => c.label).head? with
  | some s => MField.val s
  | none => MField.miss

/-- The nested-versions part of the `definition` expression, line 228:
`$arrayElemAt [$arrayElemAt ["$criteria.versions.definition", 0], 0]`.  The
path `$criteria.versions.definition` yields one list of definitions per
criteria document having a `versions` array. -/
def lookupNestedDefinition (crit : List CriteriaDoc) : Option String :=
  (((crit.filterMap fun c => c.versions).map fun vs =>
      vs.filterMap fun v => v.definition).head?).bind fun defs => defs.head?

/-- The `definition` expression of the `$push`, lines 226-231: `$ifNull` of
the nested-versions first element and of
`$arrayElemAt ["$criteria.definition", 0]`; when both are missing the result
is missing and the field is omitted. -/
def lookupDefinition (crit : List CriteriaDoc) : MField String :=
  match lookupNestedDefinition crit with
  | some s => MField.val s
  | none =>
    match (crit.filterMap fun c => c.definition).head? with
    | some s => MField.val s
    | none => MField.miss

/-- Document pushed onto the `answers` accumulator of the `$group` stage,
lines 217-232. -/
structure AnswerEntry where
  c : Option Int
  question_category : Option Int
  question_id : Option Int
  ins : Option Int
  answer_value : Option Int
  selected : Option Bool
  value : Option Int
  text : MField String
  definition : MField String
deriving DecidableEq

/-- Construction of one pushed `answers` entry from a resolved row, lines
217-232. -/
def mkEntry (r : Row3) : AnswerEntry :=
  { c := r.contact_id, question_category := r.q_category_id,
    question_id := r.q_id, ins := r.loop.loop_instance,
    answer_value := r.answer_pav, selected := r.loop.is_selected,
    value := r.criteria_value, text := lookupText r.criteria,
    definition := lookupDefinition r.criteria }

/-- A `$group` bucket, lines 212-235: key (`_id`), the two `$first` fields,
the `$push` accumulator and the `$sum: 1` count. -/
structure GroupDoc where
  key : Option Int
  answer_value : Option Int
  answer_text : Option String
  answers : List AnswerEntry
  count : Nat
deriving DecidableEq

/-- Bucket created by the first row seen with a given key: the `$first`
accumulators take this row's values. -/
def newGroup (r : Row3) : GroupDoc :=
  { key := r.answer_pav, answer_value := r.answer_pav,
    answer_text := r.answer_pat, answers := [mkEntry r], count := 1 }

/-- Accumulation of a later row into its bucket: `$push` appends in stream
order, `$sum` counts, the `$first` fields are unchanged. -/
def pushRow (r : Row3) (g : GroupDoc) : GroupDoc :=
  { g with answers := g.answers ++ [mkEntry r], count := g.count + 1 }

/-- One step of the `$group` accumulation: route the row to the bucket whose
key equals the row's `_id` expression (its `primary_answer_value`; a missing
value groups with missing), creating the bucket on first sight. -/
def groupFold (acc : List GroupDoc) (r : Row3) : List GroupDoc :=
  if acc.any fun g => g.key == r.answer_pav then
    acc.map fun g => if g.key == r.answer_pav then pushRow r g else g
  else
    acc ++ [newGroup r]

/-- The `$group` stage, lines 212-235, with buckets emitted in first-seen key
order (the store leaves the emission order unspecified; independence from it
is proved with claim C8). -/
def groupStage (rows : List Row3) : List GroupDoc :=
  rows.foldl groupFold []

/-- Output row after `$unwind "$answers"` (line 237): a bucket with a single
`answers` entry. -/
structure OutRow where
  key : Option Int
  answer_value : Option Int
  answer_text : Option String
  answer : AnswerEntry
  count : Nat
deriving DecidableEq

/-- The `$unwind "$answers"` stage, line 237. -/
def unwindGroupAnswers : List GroupDoc → List OutRow :=
  unwindBy (fun g => g.answers)
    (fun g a =>
      { key := g.key, answer_value := g.answer_value,
        answer_text := g.answer_text, answer := a, count := g.count })

/-- Three-way comparison of natural numbers. -/
def cmpNat (a b : Nat) : Ordering :=
  if a < b then Ordering.lt else if b < a then Ordering.gt else Ordering.eq

/-- Three-way comparison of integers as BSON orders numbers. -/
def cmpInt (a b : Int) : Ordering :=
  if a < b then Ordering.lt else if b < a then Ordering.gt else Ordering.eq

/-- Three-way comparison of characters by code point. -/
def cmpChar (a b : Char) : Ordering :=
  cmpNat a.toNat b.toNat

/-- Lexicographic comparison of character lists. -/
def cmpCharList : List Char → List Char → Ordering
  | [], [] => Ordering.eq
  | [], _ :: _ => Ordering.lt
  | _ :: _, [] => Ordering.gt
  | a :: as, b :: bs => (cmpChar a b).then (cmpCharList as bs)

/-- Three-way comparison of strings as BSON orders them. -/
def cmpStr (s t : String) : Ordering :=
  cmpCharList s.data t.data

/-- BSON ascending order on an optional sort key: an absent-or-null key sorts
before every present value. -/
def cmpOpt {α : Type} (cmp : α → α → Ordering) : Option α → Option α → Ordering
  | none, none => Ordering.eq
  | none, some _ => Ordering.lt
  | some _, none => Ordering.gt
  | some a, some b => cmp a b

/-- BSON ascending order on an optional integer key. -/
def cmpOptInt : Option Int → Option Int → Ordering :=
  cmpOpt cmpInt

/-- BSON ascending order on an optional string key. -/
def cmpOptStr : Option String → Option String → Ordering :=
  cmpOpt cmpStr

/-- The `$sort` key comparison, lines 239-243: ascending by `answer_text`,
then by `answers.question_id`, then by `answers.answer_value`. -/
def cmpOut (r s : OutRow) : Ordering :=
  (cmpOptStr r.answer_text s.answer_text).then
    ((cmpOptInt r.answer.question_id s.answer.question_id).then
      (cmpOptInt r.answer.answer_value s.answer.answer_value))

/-- Boolean `le` for the `$sort` comparator. -/
def leOut (r s : OutRow) : Bool :=
  !(cmpOut r s == Ordering.gt)

/-- Two output rows tie when neither sorts strictly before the other, i.e.
they agree on all three sort keys. -/
def tieOut (r s : OutRow) : Bool :=
  leOut r s && leOut s r

/-- The `$sort` comparator as a decidable relation. -/
def leOutRel (r s : OutRow) : Prop :=
  leOut r s = true

instance : DecidableRel leOutRel := fun r s =>
  inferInstanceAs (Decidable (leOut r s = true))

/-- The documented contract of the external `$sort` operator, lines 239-243:
the output is SOME permutation of the input ordered ascending by the three
keys; the relative order of documents with equal sort keys is left
undefined by the store. -/
def sortContract (input out : List OutRow) : Prop :=
  out.Perm input ∧ out.Pairwise leOutRel

/-- The `$sort` stage, lines 239-243, realised as one admissible
implementation of `sortContract` (a stable structural sort; the store does
not promise this tie order, so no claim relies on it). -/
def sortStage (rows : List OutRow) : List OutRow :=
  List.insertionSort leOutRel rows

/-- Stages 3 to 13 of the pipeline (everything after the first `$project`),
as a function of the projected documents and of the secondary collection. -/
def rowsCQ (docs : List PDoc) : List RowCQ :=
  unwindQuestions (unwindContacts docs)

/-- The streams surviving the second `$match` (line 94). -/
def rowsSurviving (docs : List PDoc) : List RowCQ :=
  (rowsCQ docs).filter matchStage2

/-- The fully flattened rows reaching the third `$match` (line 129). -/
def rowsCQAL (docs : List PDoc) : List RowCQAL :=
  unwindLoops (unwindAnswers (rowsSurviving docs))

/-- The rows surviving the third `$match`. -/
def rowsMatched (docs : List PDoc) : List RowCQAL :=
  (rowsCQAL docs).filter matchStage3

/-- The rows after the second `$project` and the `$lookup`. -/
def rowsResolved (docs : List PDoc) (ccol : List CriteriaDoc) : List Row3 :=
  ((rowsMatched docs).map projectStage2).map (attachCriteria ccol)

/-- The `$group` buckets of the pipeline. -/
def groupsOf (docs : List PDoc) (ccol : List CriteriaDoc) : List GroupDoc :=
  groupStage (rowsResolved docs ccol)

/-- The output rows before the final `$sort`. -/
def preSortRows (docs : List PDoc) (ccol : List CriteriaDoc) : List OutRow :=
  unwindGroupAnswers (groupsOf docs ccol)

/-- Stages 3 to 13 composed. -/
def pipelineFrom (docs : List PDoc) (ccol : List CriteriaDoc) : List OutRow :=
  sortStage (preSortRows docs ccol)

/-- The documents entering stage 3 in the source pipeline: initial `$match`
then the pruning `$project`. -/
def prunedDocs (db : DB) : List PDoc :=
  (db.opportunities.filter matchStage1).map projectStage1

/-- The whole pipeline of `task_3_1`, lines 44-244. -/
def task_3_1 (db : DB) : List OutRow :=
  pipelineFrom (prunedDocs db) db.clientCriteria

/-- The documents entering stage 3 when the first `$project` stage is
removed (all fields kept). -/
def rawDocs (db : DB) : List PDoc :=
  (db.opportunities.filter matchStage1).map keepDoc

/-- The pipeline with the first `$project` stage removed and every other
stage unchanged. -/
def task_3_1_unpruned (db : DB) : List OutRow :=
  pipelineFrom (rawDocs db) db.clientCriteria

/-- The rows produced by the second `$project` as a function of the documents
entering stage 3. -/
def rowsProjected (docs : List PDoc) : List Row2 :=
  (rowsMatched docs).map projectStage2

/-- The bounded-selection portion of the pipeline applied to one single
(contact, question) group: the pre-expansion `$match` (lines 94-123), the two
expansions (lines 125, 127) and the post-expansion `$match` (lines 129-146). -/
def boundedSelection (r : RowCQ) : List RowCQAL :=
  (unwindLoops (unwindAnswers (List.filter matchStage2 [r]))).filter matchStage3

/-- The flattened row built from a question row, one of its answers and one
of that answer's loop instances (the composition of the two expansion
constructors). -/
def mkRowCQAL (r : RowCQ) (a : Answer) (li : LoopInstance) : RowCQAL :=
  { clientWinner := r.clientWinner, contact_id := r.contact_id,
    win_vendor := r.win_vendor, q_category_id := r.question.category_id,
    q_id := r.question.id, q_criteria_value := r.question.criteria_value,
    a_pav := a.primary_answer_value, a_pat := a.primary_answer_text,
    a_criteria_value := a.criteria_value, loop := li }

/-- Lookup resolver written from the specification's words (section 4.5):
restrict the secondary collection to the caller's scope first, then match
each row's key by equality on the value field (the field shedding projection
commutes with the value match and is applied last here). -/
def lookupResolverSpec (ccol : List CriteriaDoc) (v1 : Option Int) : List CriteriaDoc :=
  (((ccol.filter critScopeMatch).filter fun c => c.value == v1).map critProject)

/-- Definition reduction written from the specification's words (section
4.5): prefer the nested versions-definition field, taking the first array
element, and fall back to the top-level definition field when the nested one
is absent. -/
def definitionResolverSpec (crit : List CriteriaDoc) : MField String :=
  match (lookupNestedDefinition crit).orElse
      (fun _ => (crit.filterMap fun c => c.definition).head?) with
  | some s => MField.val s
  | none => MField.miss

/-- Erasure of what the pruning `$project` removes, at the granularity of a
contact row: the top-level `clientWinner` and the pruned contact fields. -/
def eraseRowC (r : RowC) : RowC :=
  { clientWinner := none, contact := pruneContact r.contact }

/-- Erasure of the top-level `clientWinner` on a question row (the other
pruned fields are no longer carried at this stage). -/
def eraseRowCQ (r : RowCQ) : RowCQ :=
  { r with clientWinner := none }

/-- Erasure of the top-level `clientWinner` on an answer row. -/
def eraseRowCQA (r : RowCQA) : RowCQA :=
  { r with clientWinner := none }

/-- Erasure of the top-level `clientWinner` on a fully flattened row. -/
def eraseRowCQAL (r : RowCQAL) : RowCQAL :=
  { r with clientWinner := none }

/-- Laws of a three-way comparator: swapping arguments swaps the verdict,
strict verdicts compose, and comparator-equal elements compare alike against
every third element.  These hold of every lexicographic key comparison used
by the `$sort` stage. -/
structure CmpLaws {γ : Type} (cmp : γ → γ → Ordering) : Prop where
  swap_eq : ∀ a b, (cmp a b).swap = cmp b a
  lt_comp : ∀ {a b c}, cmp a b = Ordering.lt → cmp b c = Ordering.lt →
    cmp a c = Ordering.lt
  eq_subst : ∀ {a b} (c), cmp a b = Ordering.eq → cmp b c = cmp a c

/-- The output rows one `$group` bucket contributes to the `$unwind
"$answers"` stage. -/
def bucketRows (g : GroupDoc) : List OutRow :=
  g.answers.map fun a =>
    { key := g.key, answer_value := g.answer_value,
      answer_text := g.answer_text, answer := a, count := g.count }

/-! ## Concrete fixtures -/

/-- A selected loop instance with the given `loop_instance` value. -/
def selLoop (n : Int) : LoopInstance :=
  { loop_instance := some n, is_selected := some true, loop_text := none }

/-- An answer with the given value, text and loop instances. -/
def mkAnswer (v : Int) (t : String) (lis : List LoopInstance) : Answer :=
  { primary_answer_value := some v, primary_answer_text := some t,
    criteria_value := none, loopInstances := lis }

/-- A question with the given category, id and answers. -/
def mkQuestion (cat : Int) (qid : Int) (ans : List Answer) : Question :=
  { category_id := some cat, id := some qid, label := none, raw_text := none,
    criteria_value := none, answers := ans }

/-- A published contact with a shortlisted selected ADP vendor (so that the
first `$match` passes) and the given questions. -/
def mkContact (cid : Int) (qs : List Question) : Contact :=
  { id := some cid, datePublished := some 0, questions := qs,
    shortListedVendors :=
      [{ name := some "ADP", is_selected := some true, value := none }],
    win_vendor := none }

/-- An opportunity in the queried scope. -/
def mkOpp (cw : Option Bool) (cs : List Contact) : Opportunity :=
  { initiativeId := some initId, clientWinner := cw, contacts := cs }

/-- A snapshot with one category-147 question holding two answers, one below
and one above the 9000 ceiling, both with a matching selected loop
instance. -/
def dbTwoGroups : DB :=
  { opportunities :=
      [mkOpp none [mkContact 1 [mkQuestion 147 10
        [mkAnswer 8000 "A" [selLoop 50], mkAnswer 10000 "B" [selLoop 50]]]]],
    clientCriteria := [] }

/-- A question row whose two answers (values 5 and 7, both under the
ceiling) each carry a matching selected loop instance. -/
def rowBelowPair : RowCQ :=
  { clientWinner := none, contact_id := some 1, win_vendor := none,
    question := mkQuestion 147 10
      [mkAnswer 5 "A" [selLoop 50], mkAnswer 7 "B" [selLoop 50]] }

/-- A question row whose only answer value is above the ceiling. -/
def rowAllHigh : RowCQ :=
  { clientWinner := none, contact_id := some 1, win_vendor := none,
    question := mkQuestion 147 10 [mkAnswer 9500 "A" [selLoop 50]] }

/-- A snapshot whose single opportunity carries a top-level
`clientWinner: false`, a category-147 question, a winning vendor with value
50, and a loop instance matching neither branch kept by the pruned
pipeline. -/
def dbPruneDiff : DB :=
  { opportunities :=
      [ { initiativeId := some initId, clientWinner := some false,
          contacts :=
            [ { id := some 2, datePublished := some 0,
                questions := [mkQuestion 147 20 [mkAnswer 100 "C"
                  [{ loop_instance := some 99, is_selected := some true,
                     loop_text := some "X" }]]],
                shortListedVendors :=
                  [{ name := some "ADP", is_selected := some true, value := none }],
                win_vendor := some { is_client := none, name := none,
                                     value := some 50 } } ] } ],
    clientCriteria := [] }

/-- A snapshot with one surviving row and an empty secondary collection (its
correlated key has zero matches). -/
def dbNoCriteria : DB :=
  { opportunities :=
      [mkOpp none [mkContact 3 [mkQuestion 147 30 [mkAnswer 100 "C" [selLoop 50]]]]],
    clientCriteria := [] }

/-- A sample projected row whose correlated key has zero matches in an empty
secondary collection. -/
def row2Sample : Row2 :=
  { contact_id := some 3, criteria_value := none, q_id := some 30,
    q_category_id := some 147, answer_pav := some 100, answer_pat := some "C",
    answer_criteria_value := none, loop := selLoop 50, clientWinnerOut := none,
    competitorWinner := false }

/-- A snapshot whose two surviving rows tie on all three sort keys (same
group key 100, same first-seen text, same question id) while remaining
distinct rows (they come from different contacts). -/
def dbTie : DB :=
  { opportunities :=
      [mkOpp none
        [mkContact 1 [mkQuestion 147 10 [mkAnswer 100 "C" [selLoop 50]]],
         mkContact 2 [mkQuestion 147 10 [mkAnswer 100 "C" [selLoop 50]]]]],
    clientCriteria := [] }

/-- A snapshot whose questions all have at most one answer. -/
def dbSingleAnswers : DB :=
  { opportunities :=
      [mkOpp none [mkContact 1 [mkQuestion 147 10 [mkAnswer 8000 "A" [selLoop 50]]]]],
    clientCriteria := [] }

/-! ## Basic lemmas about the expansion operator -/

/-- The expansion operator is the canonical flat map. -/
theorem unwindBy_eq_flatMap {ρ σ ε : Type} (get : ρ → List ε) (set : ρ → ε → σ)
    (l : List ρ) :
    unwindBy get set l = l.flatMap (fun r => (get r).map (set r)) := by
  induction l with
  | nil => rfl
  | cons r rest ih => simp [unwindBy, ih]

/-- Membership in an expansion. -/
theorem mem_unwindBy {ρ σ ε : Type} {get : ρ → List ε} {set : ρ → ε → σ}
    {l : List ρ} {x : σ} :
    x ∈ unwindBy get set l ↔ ∃ r ∈ l, ∃ e ∈ get r, x = set r e := by
  rw [unwindBy_eq_flatMap]
  simp only [List.mem_flatMap, List.mem_map]
  constructor
  · rintro ⟨r, hr, e, he, hx⟩
    exact ⟨r, hr, e, he, hx.symm⟩
  · rintro ⟨r, hr, e, he, hx⟩
    exact ⟨r, hr, e, he, hx.symm⟩

/-- Expansions distribute over concatenation. -/
theorem unwindBy_append {ρ σ ε : Type} (get : ρ → List ε) (set : ρ → ε → σ)
    (l₁ l₂ : List ρ) :
    unwindBy get set (l₁ ++ l₂) = unwindBy get set l₁ ++ unwindBy get set l₂ := by
  induction l₁ with
  | nil => rfl
  | cons r rest ih => simp [unwindBy, ih]

/-- C6: every `$unwind` stage replaces each input row by exactly one output
row per element of the named array, in array order, neither duplicating nor
dropping elements, and a row whose array is empty produces no output row
(inner semantics). -/
theorem unwind_expansion_correct {ρ σ ε : Type} (get : ρ → List ε) (set : ρ → ε → σ)
    (rows : List ρ) :
    unwindBy get set rows = rows.flatMap (fun r => (get r).map (set r)) ∧
    (∀ r : ρ, unwindBy get set [r] = (get r).map (set r)) ∧
    (∀ r : ρ, get r = [] → unwindBy get set [r] = []) ∧
    (unwindBy get set rows).length = (rows.map fun r => (get r).length).sum := by
  refine ⟨unwindBy_eq_flatMap get set rows, ?_, ?_, ?_⟩
  · intro r
    simp [unwindBy]
  · intro r h
    simp [unwindBy, h]
  · rw [unwindBy_eq_flatMap]
    simp only [List.length_flatMap]
    congr 1
    apply List.map_congr_left
    intro r _
    simp

/-! ## Provenance of the top-level clientWinner field -/

/-- Every document produced by the pruning `$project` has no top-level
`clientWinner` field. -/
theorem clientWinner_none_prunedDocs (db : DB) :
    ∀ d ∈ prunedDocs db, d.clientWinner = none := by
  intro d hd
  rcases List.mem_map.mp hd with ⟨o, _, rfl⟩
  rfl

/-- Every fully flattened row of the pruned pipeline still has no top-level
`clientWinner` field: every stage between the pruning `$project` and the
third `$match` copies the field unchanged. -/
theorem clientWinner_none_rowsCQAL (db : DB) :
    ∀ r ∈ rowsCQAL (prunedDocs db), r.clientWinner = none := by
  intro r hr
  rcases mem_unwindBy.mp hr with ⟨ra, hra, li, _, rfl⟩
  rcases mem_unwindBy.mp hra with ⟨rq, hrq, a, _, rfl⟩
  rcases (List.mem_filter.mp hrq).1 with hrq'
  rcases mem_unwindBy.mp (by exact hrq') with ⟨rc, hrc, q, _, rfl⟩
  rcases mem_unwindBy.mp hrc with ⟨d, hd, c, _, rfl⟩
  exact clientWinner_none_prunedDocs db d hd

/-- C9: in the pruned pipeline the third `$or` branch of the `$match` that
follows the answers and loopInstances expansions (the branch conditioned on
the top-level `clientWinner` equalling `false`) never matches, because the
first `$project` removed the field; the stage is equivalent to the same
`$match` with only its first two branches. -/
theorem matchStage3_clientWinner_branch_dead (db : DB) :
    rowsMatched (prunedDocs db) =
      (rowsCQAL (prunedDocs db)).filter matchStage3TwoBranches := by
  unfold rowsMatched
  apply List.filter_congr
  intro r hr
  have h := clientWinner_none_rowsCQAL db r hr
  simp [matchStage3, matchStage3TwoBranches, h]

/-- C10: in the pruned pipeline, the computed `competitorWinner` field equals
`false` on every row produced by the second `$project`, whatever the row's
other fields are, because the leading `$eq` of the input document's (removed)
`clientWinner` with `false` is false. -/
theorem competitorWinner_always_false (db : DB) :
    ∀ r2 ∈ (rowsMatched (prunedDocs db)).map projectStage2,
      r2.competitorWinner = false := by
  intro r2 hr2
  rcases List.mem_map.mp hr2 with ⟨r, hr, rfl⟩
  have h : r.clientWinner = none :=
    clientWinner_none_rowsCQAL db r (List.mem_filter.mp hr).1
  simp [projectStage2, competitorWinnerExpr, aggCmpBool, h]

/-! ## The correlated lookup (C5) -/

/-- C5: the correlated lookup restricts the secondary collection by the
caller's scope identifier first and only then matches each row's key by
equality on the value field; and the multi-match reduction deterministically
prefers the nested versions-definition field (first array element), falling
back to the top-level definition field when the nested one is absent. -/
theorem lookup_scope_first_and_reduction :
    (∀ (ccol : List CriteriaDoc) (v1 : Option Int),
      lookupPipeline ccol v1 = lookupResolverSpec ccol v1) ∧
    (∀ crit : List CriteriaDoc, lookupDefinition crit = definitionResolverSpec crit) := by
  constructor
  · intro ccol v1
    unfold lookupPipeline lookupResolverSpec
    rw [List.filter_map]
    congr 1
  · intro crit
    unfold lookupDefinition definitionResolverSpec
    cases lookupNestedDefinition crit with
    | none =>
      cases (crit.filterMap fun c => c.definition).head? <;> rfl
    | some s => rfl

/-! ## The bounded-selection claim (C2) -/

/-- C2 counterexample: on a question group with answer values 5 and 7 (both
below the ceiling 9000), the same-row/cross-group filter returns BOTH rows,
not only the row carrying the maximum qualifying value 7. -/
theorem boundedSelection_not_maximal_cex :
    ((boundedSelection rowBelowPair).map fun x => x.a_pav) = [some 5, some 7] ∧
    ¬(∀ x ∈ boundedSelection rowBelowPair, x.a_pav = some 7) := by
  constructor
  · decide
  · decide

/-- C2 amended: the filter performs no maximum-below-ceiling selection.  It
returns zero rows when every answer value of the group is at least the
ceiling or missing; and whenever the question group passes the pre-expansion
match, EVERY (answer, loop-instance) pair passing the post-expansion match
survives, maximal-valued or not. -/
theorem boundedSelection_keeps_all_qualifying (r : RowCQ) :
    ((∀ a ∈ r.question.answers, ∀ v, a.primary_answer_value = some v → 9000 ≤ v) →
      boundedSelection r = []) ∧
    (matchStage2 r = true →
      ∀ a ∈ r.question.answers, ∀ li ∈ a.loopInstances,
        matchStage3 (mkRowCQAL r a li) = true →
        mkRowCQAL r a li ∈ boundedSelection r) := by
  constructor
  · intro h
    have h3 : (r.question.answers.any fun a =>
        match a.primary_answer_value with
        | some v => decide (v < 9000)
        | none => false) = false := by
      rw [List.any_eq_false]
      intro a ha
      cases hv : a.primary_answer_value with
      | none => simp
      | some v =>
        have := h a ha v hv
        simp only [decide_eq_true_eq]
        omega
    have h2 : matchStage2 r = false := by
      unfold matchStage2
      rw [h3]
      simp
    simp [boundedSelection, List.filter_cons, h2, unwindAnswers, unwindLoops, unwindBy]
  · intro hm a ha li hli h3
    unfold boundedSelection
    apply List.mem_filter.mpr
    refine ⟨?_, h3⟩
    unfold unwindLoops
    apply mem_unwindBy.mpr
    refine ⟨{ clientWinner := r.clientWinner, contact_id := r.contact_id,
              win_vendor := r.win_vendor, q_category_id := r.question.category_id,
              q_id := r.question.id, q_criteria_value := r.question.criteria_value,
              answer := a }, ?_, li, hli, rfl⟩
    unfold unwindAnswers
    apply mem_unwindBy.mpr
    refine ⟨r, ?_, a, ha, rfl⟩
    exact List.mem_filter.mpr ⟨List.mem_singleton.mpr rfl, hm⟩

/-- C2 witness: a group whose only value is above the ceiling yields zero
rows, and on the values 5 and 7 the non-maximal pair with value 5 is
returned. -/
theorem boundedSelection_keeps_all_qualifying_witness :
    boundedSelection rowAllHigh = [] ∧
    mkRowCQAL rowBelowPair (mkAnswer 5 "A" [selLoop 50]) (selLoop 50) ∈
      boundedSelection rowBelowPair :=
  ⟨(boundedSelection_keeps_all_qualifying rowAllHigh).1 (by decide),
   (boundedSelection_keeps_all_qualifying rowBelowPair).2 (by decide)
     (mkAnswer 5 "A" [selLoop 50]) (by decide) (selLoop 50) (by decide) (by decide)⟩

/-! ## The lookup totality claim (C4) -/

/-- C4 counterexample: with an empty secondary collection the single
surviving row IS kept, but its `text` and `definition` output fields are
ABSENT (missing) from the pushed entry, not populated with an explicit
null. -/
theorem lookup_fields_absent_cex :
    (task_3_1 dbNoCriteria).length = 1 ∧
    ¬(∀ r ∈ task_3_1 dbNoCriteria,
        r.answer.text ≠ MField.miss ∧ r.answer.definition ≠ MField.miss) := by
  constructor
  · decide
  · decide

/-- C4 amended: the lookup stage keeps every row, and a row whose correlated
key has zero matches in the restricted secondary collection gets `text` and
`definition` fields that are absent (missing) from its pushed entry rather
than explicit nulls. -/
theorem lookup_total_function (ccol : List CriteriaDoc) (rows : List Row2) :
    (rows.map (attachCriteria ccol)).length = rows.length ∧
    (∀ r : Row2, lookupPipeline ccol r.criteria_value = [] →
      (mkEntry (attachCriteria ccol r)).text = MField.miss ∧
      (mkEntry (attachCriteria ccol r)).definition = MField.miss) := by
  constructor
  · simp
  · intro r h
    constructor
    · simp [mkEntry, attachCriteria, h, lookupText]
    · simp [mkEntry, attachCriteria, h, lookupDefinition, lookupNestedDefinition]

/-- C4 witness: the amended claim at a concrete row and an empty secondary
collection. -/
theorem lookup_total_function_witness :
    ([row2Sample].map (attachCriteria [])).length = [row2Sample].length ∧
    ((mkEntry (attachCriteria [] row2Sample)).text = MField.miss ∧
      (mkEntry (attachCriteria [] row2Sample)).definition = MField.miss) :=
  ⟨(lookup_total_function [] [row2Sample]).1,
   (lookup_total_function [] [row2Sample]).2 row2Sample (by decide)⟩

/-! ## The ceiling claim (C1) -/

/-- C1 counterexample: on `dbTwoGroups` (scope S1, categories 105 and 147,
value set with 50, ceiling 9000) the pipeline returns a group whose
`answer_value` is 10000: the sibling answer 8000 lets the question through
the pre-expansion value filter, and no later stage bounds the individual
answer values. -/
theorem answer_value_ceiling_cex :
    (∃ g ∈ task_3_1 dbTwoGroups, g.answer_value = some 10000) ∧
    ¬(∀ g ∈ task_3_1 dbTwoGroups, ∀ v, g.answer_value = some v → v < 9000) := by
  have h : ∃ g ∈ task_3_1 dbTwoGroups, g.answer_value = some 10000 := by decide
  refine ⟨h, fun hall => ?_⟩
  rcases h with ⟨g, hg, hv⟩
  have := hall g hg 10000 hv
  omega

/-- Two members of a list of length at most one are equal. -/
theorem mem_eq_of_length_le_one {α : Type} :
    ∀ {l : List α}, l.length ≤ 1 → ∀ a ∈ l, ∀ b ∈ l, a = b := by
  intro l h a ha b hb
  match l with
  | [] => cases ha
  | [x] =>
    rw [List.mem_singleton] at ha hb
    rw [ha, hb]
  | x :: y :: t =>
    simp only [List.length_cons] at h
    omega

/-- Every question row of the pruned pipeline carries a question of some
contact of some opportunity of the snapshot (the pruning projection keeps the
questions array unchanged). -/
theorem rowsCQ_question_provenance (db : DB) :
    ∀ rq ∈ rowsCQ (prunedDocs db),
      ∃ o ∈ db.opportunities, ∃ c ∈ o.contacts, rq.question ∈ c.questions := by
  intro rq hrq
  unfold rowsCQ unwindQuestions at hrq
  rcases mem_unwindBy.mp hrq with ⟨rc, hrc, q, hq, rfl⟩
  unfold unwindContacts at hrc
  rcases mem_unwindBy.mp hrc with ⟨d, hd, c, hc, rfl⟩
  unfold prunedDocs at hd
  rcases List.mem_map.mp hd with ⟨o, ho, rfl⟩
  rcases List.mem_map.mp (by simpa [projectStage1] using hc) with ⟨c0, hc0, rfl⟩
  exact ⟨o, (List.mem_filter.mp ho).1, c0, hc0, by simpa [pruneContact] using hq⟩

/-- In a snapshot where every question holds at most one answer, every fully
flattened row of the pruned pipeline carries an answer value strictly below
the 9000 ceiling (the pre-expansion filter guarantees SOME answer of the
question is below the ceiling, and there is only one). -/
theorem rowsCQAL_pav_lt (db : DB)
    (hsing : ∀ o ∈ db.opportunities, ∀ c ∈ o.contacts, ∀ q ∈ c.questions,
      q.answers.length ≤ 1) :
    ∀ r ∈ rowsCQAL (prunedDocs db), ∃ v, r.a_pav = some v ∧ v < 9000 := by
  intro r hr
  unfold rowsCQAL unwindLoops at hr
  rcases mem_unwindBy.mp hr with ⟨ra, hra, li, hli, rfl⟩
  unfold unwindAnswers at hra
  rcases mem_unwindBy.mp hra with ⟨rq, hrq, a, ha, rfl⟩
  unfold rowsSurviving at hrq
  have hmem := List.mem_filter.mp hrq
  have hm2 : matchStage2 rq = true := hmem.2
  unfold matchStage2 at hm2
  rw [Bool.and_eq_true, Bool.and_eq_true] at hm2
  obtain ⟨-, h3⟩ := hm2
  rw [List.any_eq_true] at h3
  obtain ⟨a2, ha2, hfa2⟩ := h3
  rcases rowsCQ_question_provenance db rq hmem.1 with ⟨o, ho, c, hc, hq⟩
  have hlen := hsing o ho c hc rq.question hq
  have haa2 : a = a2 := mem_eq_of_length_le_one hlen a ha a2 ha2
  subst haa2
  cases hv : a.primary_answer_value with
  | none => rw [hv] at hfa2; cases hfa2
  | some v =>
    rw [hv] at hfa2
    simp only [decide_eq_true_eq] at hfa2
    exact ⟨v, rfl, hfa2⟩

/-- The ceiling property survives the second `$project` and the lookup. -/
theorem rowsResolved_pav_lt (db : DB) (ccol : List CriteriaDoc)
    (hsing : ∀ o ∈ db.opportunities, ∀ c ∈ o.contacts, ∀ q ∈ c.questions,
      q.answers.length ≤ 1) :
    ∀ r ∈ rowsResolved (prunedDocs db) ccol,
      ∃ v, r.answer_pav = some v ∧ v < 9000 := by
  intro r hr
  unfold rowsResolved at hr
  rcases List.mem_map.mp hr with ⟨r2, hr2, rfl⟩
  rcases List.mem_map.mp hr2 with ⟨r3, hr3, rfl⟩
  unfold rowsMatched at hr3
  have h := rowsCQAL_pav_lt db hsing r3 (List.mem_filter.mp hr3).1
  simpa [attachCriteria, projectStage2] using h

/-- An invariant that holds of every new bucket and is preserved by routed
accumulation holds of every bucket produced by the `$group` stage. -/
theorem foldl_groupFold_invariant (P : GroupDoc → Prop) :
    ∀ (rows : List Row3) (acc : List GroupDoc),
      (∀ g ∈ acc, P g) →
      (∀ r ∈ rows, P (newGroup r)) →
      (∀ r ∈ rows, ∀ g, P g → (g.key == r.answer_pav) = true → P (pushRow r g)) →
      ∀ g ∈ rows.foldl groupFold acc, P g := by
  intro rows
  induction rows with
  | nil => intro acc hacc _ _ g hg; exact hacc g hg
  | cons r rest ih =>
    intro acc hacc hnew hpush g hg
    rw [List.foldl_cons] at hg
    refine ih (groupFold acc r) ?_
      (fun r2 h2 => hnew r2 (List.mem_cons_of_mem r h2))
      (fun r2 h2 => hpush r2 (List.mem_cons_of_mem r h2)) g hg
    intro g2 hg2
    unfold groupFold at hg2
    by_cases hc : (acc.any fun g3 => g3.key == r.answer_pav) = true
    · rw [if_pos hc] at hg2
      rcases List.mem_map.mp hg2 with ⟨g3, hg3, rfl⟩
      by_cases hk : (g3.key == r.answer_pav) = true
      · rw [if_pos hk]
        exact hpush r (List.mem_cons_self r rest) g3 (hacc g3 hg3) hk
      · rw [if_neg hk]
        exact hacc g3 hg3
    · rw [if_neg hc] at hg2
      rcases List.mem_append.mp hg2 with h | h
      · exact hacc _ h
      · rw [List.mem_singleton] at h
        rw [h]
        exact hnew r (List.mem_cons_self r rest)

/-- C1 amended: provided every question's answers array holds at most one
answer, every returned group of the pipeline entry point (scope S1,
categories 105 and 147, value set with 50, ceiling 9000) has
`answer_value < 9000`.  (Without that hypothesis a sibling answer below the
ceiling can carry a group whose own value is 9000 or more, as the
counterexample shows.) -/
theorem answer_value_lt_ceiling_of_single_answers (db : DB)
    (hsing : ∀ o ∈ db.opportunities, ∀ c ∈ o.contacts, ∀ q ∈ c.questions,
      q.answers.length ≤ 1) :
    ∀ g ∈ task_3_1 db, ∃ v, g.answer_value = some v ∧ v < 9000 := by
  intro g hg
  unfold task_3_1 pipelineFrom sortStage at hg
  rw [List.mem_insertionSort] at hg
  unfold preSortRows unwindGroupAnswers at hg
  rcases mem_unwindBy.mp hg with ⟨b, hb, e, he, rfl⟩
  have hbP : ∃ v, b.answer_value = some v ∧ v < 9000 := by
    unfold groupsOf groupStage at hb
    refine foldl_groupFold_invariant
      (fun g2 => ∃ v, g2.answer_value = some v ∧ v < 9000)
      (rowsResolved (prunedDocs db) db.clientCriteria) [] (by simp) ?_ ?_ b hb
    · intro r hr
      exact rowsResolved_pav_lt db db.clientCriteria hsing r hr
    · intro r _ g2 hg2 _
      exact hg2
  exact hbP

/-- C1 witness: the amended claim on a concrete single-answer snapshot. -/
theorem answer_value_lt_ceiling_of_single_answers_witness :
    (∀ o ∈ dbSingleAnswers.opportunities, ∀ c ∈ o.contacts, ∀ q ∈ c.questions,
      q.answers.length ≤ 1) ∧
    (∀ g ∈ task_3_1 dbSingleAnswers, ∃ v, g.answer_value = some v ∧ v < 9000) :=
  ⟨by decide, answer_value_lt_ceiling_of_single_answers dbSingleAnswers (by decide)⟩

/-! ## Projection soundness (C3) -/

/-- An expansion commutes with a row transformation that leaves the unwound
array unchanged. -/
theorem unwindBy_map {ρ σ ε : Type} (f : ρ → ρ) (h : σ → σ) (get : ρ → List ε)
    (set : ρ → ε → σ) (hget : ∀ r, get (f r) = get r)
    (hset : ∀ r e, set (f r) e = h (set r e)) :
    ∀ l, unwindBy get set (l.map f) = (unwindBy get set l).map h := by
  intro l
  induction l with
  | nil => rfl
  | cons r rest ih =>
    simp only [List.map_cons, unwindBy, ih, List.map_append, List.map_map]
    congr 1
    rw [hget]
    apply List.map_congr_left
    intro e _
    exact hset r e

/-- Every fully flattened row inherits its top-level `clientWinner` from one
of the documents entering stage 3. -/
theorem rowsCQAL_clientWinner_provenance (docs : List PDoc) :
    ∀ r ∈ rowsCQAL docs, ∃ d ∈ docs, r.clientWinner = d.clientWinner := by
  intro r hr
  unfold rowsCQAL unwindLoops at hr
  rcases mem_unwindBy.mp hr with ⟨ra, hra, li, _, rfl⟩
  unfold unwindAnswers at hra
  rcases mem_unwindBy.mp hra with ⟨rq, hrq, a, _, rfl⟩
  unfold rowsSurviving at hrq
  have hrq' := (List.mem_filter.mp hrq).1
  unfold rowsCQ unwindQuestions at hrq'
  rcases mem_unwindBy.mp hrq' with ⟨rc, hrc, q, _, rfl⟩
  unfold unwindContacts at hrc
  rcases mem_unwindBy.mp hrc with ⟨d, hd, c, _, rfl⟩
  exact ⟨d, hd, rfl⟩

/-- For an opportunity whose top-level `clientWinner` is not `false`, pruning
it or keeping all its fields produces the same rows out of the second
`$project`: the pruned fields other than `clientWinner` are not read by any
stage after the pruning point, and `clientWinner` only feeds a `$match`
branch and a `$project` conjunct that both require it to equal `false`. -/
theorem rowsProjected_prune_eq (o : Opportunity) (h : o.clientWinner ≠ some false) :
    rowsProjected [projectStage1 o] = rowsProjected [keepDoc o] := by
  have h1 : unwindContacts [projectStage1 o] =
      (unwindContacts [keepDoc o]).map eraseRowC := by
    simp [unwindContacts, unwindBy, projectStage1, keepDoc, eraseRowC, List.map_map]
  have h2 : rowsCQ [projectStage1 o] = (rowsCQ [keepDoc o]).map eraseRowCQ := by
    unfold rowsCQ
    rw [h1]
    unfold unwindQuestions
    apply unwindBy_map
    · intro r
      rfl
    · intro r e
      rfl
  have h3 : rowsSurviving [projectStage1 o] =
      (rowsSurviving [keepDoc o]).map eraseRowCQ := by
    unfold rowsSurviving
    rw [h2, List.filter_map]
    congr 1
  have h4a : unwindAnswers ((rowsSurviving [keepDoc o]).map eraseRowCQ) =
      (unwindAnswers (rowsSurviving [keepDoc o])).map eraseRowCQA := by
    unfold unwindAnswers
    apply unwindBy_map
    · intro r
      rfl
    · intro r e
      rfl
  have h4b : unwindLoops ((unwindAnswers (rowsSurviving [keepDoc o])).map eraseRowCQA) =
      (unwindLoops (unwindAnswers (rowsSurviving [keepDoc o]))).map eraseRowCQAL := by
    unfold unwindLoops
    apply unwindBy_map
    · intro r
      rfl
    · intro r e
      rfl
  have h4 : rowsCQAL [projectStage1 o] =
      (rowsCQAL [keepDoc o]).map eraseRowCQAL := by
    unfold rowsCQAL
    rw [h3, h4a, h4b]
  have hcw : ∀ r ∈ rowsCQAL [keepDoc o], (r.clientWinner == some false) = false := by
    intro r hr
    rcases rowsCQAL_clientWinner_provenance [keepDoc o] r hr with ⟨d, hd, hrd⟩
    rw [List.mem_singleton] at hd
    rw [hrd, hd]
    exact beq_eq_false_iff_ne.mpr h
  have h5 : rowsMatched [projectStage1 o] =
      (rowsMatched [keepDoc o]).map eraseRowCQAL := by
    unfold rowsMatched
    rw [h4, List.filter_map]
    congr 1
    apply List.filter_congr
    intro x hx
    have hx' := hcw x hx
    show matchStage3 (eraseRowCQAL x) = matchStage3 x
    simp [matchStage3, eraseRowCQAL, hx']
  unfold rowsProjected
  rw [h5, List.map_map]
  apply List.map_congr_left
  intro x hx
  have hx' := hcw x (List.mem_filter.mp hx).1
  show projectStage2 (eraseRowCQAL x) = projectStage2 x
  simp [projectStage2, eraseRowCQAL, competitorWinnerExpr, hx']

/-- The stages between the pruning point and the second `$project` process
documents independently. -/
theorem rowsProjected_cons (d : PDoc) (docs : List PDoc) :
    rowsProjected (d :: docs) = rowsProjected [d] ++ rowsProjected docs := by
  have hsplit : (d :: docs) = [d] ++ docs := rfl
  unfold rowsProjected rowsMatched rowsCQAL rowsSurviving rowsCQ
  unfold unwindContacts unwindQuestions unwindAnswers unwindLoops
  rw [hsplit, unwindBy_append, unwindBy_append, List.filter_append, unwindBy_append,
    unwindBy_append, List.filter_append, List.map_append]

/-- Per-document decomposition of the stages between the pruning point and
the second `$project`. -/
theorem rowsProjected_flatMap (docs : List PDoc) :
    rowsProjected docs = docs.flatMap fun d => rowsProjected [d] := by
  induction docs with
  | nil => rfl
  | cons d rest ih => rw [rowsProjected_cons, List.flatMap_cons, ih]

/-- C3 counterexample: on `dbPruneDiff` the pipeline with the pruning
`$project` returns a different (empty) result from the pipeline without it:
the raw document's top-level `clientWinner: false` satisfies the third
`$or` branch of the later `$match` only when the field is not pruned away. -/
theorem pruning_changes_result_cex :
    task_3_1 dbPruneDiff ≠ task_3_1_unpruned dbPruneDiff := by
  decide

/-- C3 amended: removing the field-allow-list projection stage changes
nothing for snapshots in which no opportunity carries a top-level
`clientWinner` equal to `false`; in general (see the counterexample) a raw
document with `clientWinner: false` can satisfy the third `$or` branch of
the post-expansion `$match` that the pruned pipeline can never satisfy. -/
theorem pruning_sound_without_clientWinner_false (db : DB)
    (h : ∀ o ∈ db.opportunities, o.clientWinner ≠ some false) :
    task_3_1 db = task_3_1_unpruned db := by
  have key : rowsProjected (prunedDocs db) = rowsProjected (rawDocs db) := by
    unfold prunedDocs rawDocs
    rw [rowsProjected_flatMap, rowsProjected_flatMap, List.flatMap_map, List.flatMap_map]
    have hmap : (db.opportunities.filter matchStage1).map
          (fun o => rowsProjected [projectStage1 o]) =
        (db.opportunities.filter matchStage1).map
          (fun o => rowsProjected [keepDoc o]) :=
      List.map_congr_left fun o ho =>
        rowsProjected_prune_eq o (h o (List.mem_of_mem_filter ho))
    rw [List.flatMap_def, List.flatMap_def, hmap]
  have key2 : rowsResolved (prunedDocs db) db.clientCriteria =
      rowsResolved (rawDocs db) db.clientCriteria := by
    unfold rowsResolved
    unfold rowsProjected at key
    rw [key]
  unfold task_3_1 task_3_1_unpruned pipelineFrom preSortRows groupsOf
  rw [key2]

/-- C3 witness: on a snapshot without any top-level `clientWinner: false`
both pipelines agree. -/
theorem pruning_sound_without_clientWinner_false_witness :
    (∀ o ∈ dbTwoGroups.opportunities, o.clientWinner ≠ some false) ∧
    task_3_1 dbTwoGroups = task_3_1_unpruned dbTwoGroups :=
  ⟨by decide, pruning_sound_without_clientWinner_false dbTwoGroups (by decide)⟩

/-- C6 witness: the expansion properties instantiated at a question whose
answers array is empty (zero output rows). -/
theorem unwind_expansion_correct_witness :
    unwindBy (fun q : Question => q.answers)
      (fun q a => (q.id, a)) [mkQuestion 147 1 []] = [] :=
  (unwind_expansion_correct (fun q : Question => q.answers)
    (fun q a => (q.id, a)) [mkQuestion 147 1 []]).2.2.1 (mkQuestion 147 1 []) rfl

/-- C10 witness: the row produced by the second `$project` on the single
surviving row of `dbNoCriteria` has `competitorWinner = false`. -/
theorem competitorWinner_always_false_witness :
    (projectStage2 (mkRowCQAL
        { clientWinner := none, contact_id := some 3, win_vendor := none,
          question := mkQuestion 147 30 [mkAnswer 100 "C" [selLoop 50]] }
        (mkAnswer 100 "C" [selLoop 50]) (selLoop 50))).competitorWinner = false :=
  competitorWinner_always_false dbNoCriteria _ (by decide)

/-! ## Comparator laws for the sort stage -/

/-- Swapping distributes over the lexicographic chaining of verdicts. -/
theorem ordering_then_swap (o₁ o₂ : Ordering) :
    (o₁.then o₂).swap = o₁.swap.then o₂.swap := by
  cases o₁ <;> rfl

/-- Characterisation of a strict `lt` verdict of a chained comparison. -/
theorem ordering_then_eq_lt {o₁ o₂ : Ordering} :
    o₁.then o₂ = Ordering.lt ↔ o₁ = Ordering.lt ∨ (o₁ = Ordering.eq ∧ o₂ = Ordering.lt) := by
  cases o₁ <;> simp [Ordering.then]

/-- Characterisation of an `eq` verdict of a chained comparison. -/
theorem ordering_then_eq_eq {o₁ o₂ : Ordering} :
    o₁.then o₂ = Ordering.eq ↔ o₁ = Ordering.eq ∧ o₂ = Ordering.eq := by
  cases o₁ <;> simp [Ordering.then]

/-- A comparator compares every element to itself as equal. -/
theorem CmpLaws.refl_eq {γ : Type} {cmp : γ → γ → Ordering} (h : CmpLaws cmp)
    (a : γ) : cmp a a = Ordering.eq := by
  have hs := h.swap_eq a a
  cases hh : cmp a a with
  | eq => rfl
  | lt => rw [hh] at hs; exact absurd hs (by decide)
  | gt => rw [hh] at hs; exact absurd hs (by decide)

/-- Right-hand substitution of comparator-equal elements. -/
theorem CmpLaws.eq_substr {γ : Type} {cmp : γ → γ → Ordering} (h : CmpLaws cmp)
    {b c : γ} (a : γ) (hbc : cmp b c = Ordering.eq) : cmp a b = cmp a c := by
  have hcb : cmp c b = Ordering.eq := by
    rw [← h.swap_eq b c, hbc]
    rfl
  have h2 := h.eq_subst a hcb
  have h3 := congrArg Ordering.swap h2
  rwa [h.swap_eq, h.swap_eq] at h3

/-- Transitivity of the non-strict order induced by a comparator. -/
theorem CmpLaws.ne_gt_comp {γ : Type} {cmp : γ → γ → Ordering} (h : CmpLaws cmp)
    {a b c : γ} (h1 : cmp a b ≠ Ordering.gt) (h2 : cmp b c ≠ Ordering.gt) :
    cmp a c ≠ Ordering.gt := by
  cases hab : cmp a b with
  | gt => exact absurd hab h1
  | eq => rw [← h.eq_subst c hab]; exact h2
  | lt =>
    cases hbc : cmp b c with
    | gt => exact absurd hbc h2
    | eq =>
      rw [← h.eq_substr a hbc, hab]
      simp
    | lt =>
      rw [h.lt_comp hab hbc]
      simp

/-- Totality of the non-strict order induced by a comparator. -/
theorem CmpLaws.ne_gt_total {γ : Type} {cmp : γ → γ → Ordering} (h : CmpLaws cmp)
    (a b : γ) : cmp a b ≠ Ordering.gt ∨ cmp b a ≠ Ordering.gt := by
  cases hab : cmp a b with
  | lt => exact Or.inl (by simp)
  | eq => exact Or.inl (by simp)
  | gt =>
    right
    rw [← h.swap_eq a b, hab]
    decide

/-- Mutually non-strict elements are comparator-equal. -/
theorem CmpLaws.eq_of_ne_gt_both {γ : Type} {cmp : γ → γ → Ordering} (h : CmpLaws cmp)
    {a b : γ} (h1 : cmp a b ≠ Ordering.gt) (h2 : cmp b a ≠ Ordering.gt) :
    cmp a b = Ordering.eq := by
  cases hab : cmp a b with
  | eq => rfl
  | gt => exact absurd hab h1
  | lt =>
    exfalso
    apply h2
    rw [← h.swap_eq a b, hab]
    rfl

/-- Comparator laws are preserved by lexicographic chaining. -/
theorem CmpLaws.then_comp {γ : Type} {f g : γ → γ → Ordering}
    (hf : CmpLaws f) (hg : CmpLaws g) :
    CmpLaws (fun a b => (f a b).then (g a b)) := by
  refine ⟨?_, ?_, ?_⟩
  · intro a b
    simp only [ordering_then_swap, hf.swap_eq, hg.swap_eq]
  · intro a b c h1 h2
    simp only [ordering_then_eq_lt] at h1 h2 ⊢
    rcases h1 with h1 | ⟨h1e, h1t⟩ <;> rcases h2 with h2 | ⟨h2e, h2t⟩
    · exact Or.inl (hf.lt_comp h1 h2)
    · rw [hf.eq_substr a h2e] at h1
      exact Or.inl h1
    · rw [hf.eq_subst c h1e] at h2
      exact Or.inl h2
    · refine Or.inr ⟨?_, hg.lt_comp h1t h2t⟩
      rw [← hf.eq_subst c h1e]
      exact h2e
  · intro a b c h
    simp only [ordering_then_eq_eq] at h
    simp only [hf.eq_subst c h.1, hg.eq_subst c h.2]

/-- Comparator laws are preserved by comparing through a key function. -/
theorem CmpLaws.on_key {γ δ : Type} {cmp : δ → δ → Ordering} (h : CmpLaws cmp)
    (k : γ → δ) : CmpLaws (fun a b => cmp (k a) (k b)) :=
  ⟨fun a b => h.swap_eq (k a) (k b),
   fun h1 h2 => h.lt_comp h1 h2,
   fun c hc => h.eq_subst (k c) hc⟩

/-- The natural-number comparator orders strictly below exactly when below. -/
theorem cmpNat_eq_lt {a b : Nat} : cmpNat a b = Ordering.lt ↔ a < b := by
  unfold cmpNat
  split_ifs with h1 h2 <;> simp_all <;> omega

/-- The natural-number comparator judges equal exactly the equal numbers. -/
theorem cmpNat_eq_eq {a b : Nat} : cmpNat a b = Ordering.eq ↔ a = b := by
  unfold cmpNat
  split_ifs with h1 h2 <;> simp_all <;> omega

/-- The natural-number comparator is lawful. -/
theorem cmpNat_laws : CmpLaws cmpNat := by
  refine ⟨?_, ?_, ?_⟩
  · intro a b
    unfold cmpNat
    split_ifs with h1 h2 <;> first | rfl | omega
  · intro a b c h1 h2
    rw [cmpNat_eq_lt] at h1 h2 ⊢
    omega
  · intro a b c h
    rw [cmpNat_eq_eq] at h
    rw [h]

/-- The integer comparator orders strictly below exactly when below. -/
theorem cmpInt_eq_lt {a b : Int} : cmpInt a b = Ordering.lt ↔ a < b := by
  unfold cmpInt
  split_ifs with h1 h2 <;> simp_all <;> omega

/-- The integer comparator judges equal exactly the equal integers. -/
theorem cmpInt_eq_eq {a b : Int} : cmpInt a b = Ordering.eq ↔ a = b := by
  unfold cmpInt
  split_ifs with h1 h2 <;> simp_all <;> omega

/-- The integer comparator is lawful. -/
theorem cmpInt_laws : CmpLaws cmpInt := by
  refine ⟨?_, ?_, ?_⟩
  · intro a b
    unfold cmpInt
    split_ifs with h1 h2 <;> first | rfl | omega
  · intro a b c h1 h2
    rw [cmpInt_eq_lt] at h1 h2 ⊢
    omega
  · intro a b c h
    rw [cmpInt_eq_eq] at h
    rw [h]

/-- The character comparator is lawful. -/
theorem cmpChar_laws : CmpLaws cmpChar :=
  cmpNat_laws.on_key Char.toNat

/-- Swap law of the character-list comparator. -/
theorem cmpCharList_swap : ∀ l₁ l₂, (cmpCharList l₁ l₂).swap = cmpCharList l₂ l₁
  | [], [] => rfl
  | [], _ :: _ => rfl
  | _ :: _, [] => rfl
  | a :: as, b :: bs => by
    simp only [cmpCharList, ordering_then_swap, cmpChar_laws.swap_eq,
      cmpCharList_swap as bs]

/-- Strict composition law of the character-list comparator. -/
theorem cmpCharList_lt :
    ∀ {l₁ l₂ l₃}, cmpCharList l₁ l₂ = Ordering.lt →
      cmpCharList l₂ l₃ = Ordering.lt → cmpCharList l₁ l₃ = Ordering.lt := by
  intro l₁
  induction l₁ with
  | nil =>
    intro l₂ l₃ h1 h2
    cases l₂ with
    | nil => simp [cmpCharList] at h1
    | cons b bs =>
      cases l₃ with
      | nil => simp [cmpCharList] at h2
      | cons c cs => simp [cmpCharList]
  | cons a as ih =>
    intro l₂ l₃ h1 h2
    cases l₂ with
    | nil => simp [cmpCharList] at h1
    | cons b bs =>
      cases l₃ with
      | nil => simp [cmpCharList] at h2
      | cons c cs =>
        simp only [cmpCharList, ordering_then_eq_lt] at h1 h2 ⊢
        rcases h1 with h1 | ⟨h1e, h1t⟩ <;> rcases h2 with h2 | ⟨h2e, h2t⟩
        · exact Or.inl (cmpChar_laws.lt_comp h1 h2)
        · rw [cmpChar_laws.eq_substr a h2e] at h1
          exact Or.inl h1
        · rw [cmpChar_laws.eq_subst c h1e] at h2
          exact Or.inl h2
        · refine Or.inr ⟨?_, ih h1t h2t⟩
          rw [← cmpChar_laws.eq_subst c h1e]
          exact h2e

/-- Equality-substitution law of the character-list comparator. -/
theorem cmpCharList_eq_subst :
    ∀ {l₁ l₂} (l₃), cmpCharList l₁ l₂ = Ordering.eq →
      cmpCharList l₂ l₃ = cmpCharList l₁ l₃ := by
  intro l₁
  induction l₁ with
  | nil =>
    intro l₂ l₃ h
    cases l₂ with
    | nil => rfl
    | cons b bs => simp [cmpCharList] at h
  | cons a as ih =>
    intro l₂ l₃ h
    cases l₂ with
    | nil => simp [cmpCharList] at h
    | cons b bs =>
      simp only [cmpCharList, ordering_then_eq_eq] at h
      cases l₃ with
      | nil => rfl
      | cons c cs =>
        simp only [cmpCharList]
        rw [cmpChar_laws.eq_subst c h.1, ih cs h.2]

/-- The character-list comparator is lawful. -/
theorem cmpCharList_laws : CmpLaws cmpCharList :=
  ⟨cmpCharList_swap, fun h1 h2 => cmpCharList_lt h1 h2,
   fun c hc => cmpCharList_eq_subst c hc⟩

/-- The string comparator is lawful. -/
theorem cmpStr_laws : CmpLaws cmpStr :=
  cmpCharList_laws.on_key String.data

/-- The optional-key comparator is lawful whenever its base is. -/
theorem cmpOpt_laws {α : Type} {cmp : α → α → Ordering} (h : CmpLaws cmp) :
    CmpLaws (cmpOpt cmp) := by
  refine ⟨?_, ?_, ?_⟩
  · intro a b
    cases a <;> cases b <;> first | rfl | simp [cmpOpt, h.swap_eq]
  · intro a b c h1 h2
    cases a <;> cases b <;> cases c <;>
      simp only [cmpOpt] at h1 h2 ⊢ <;>
      first
      | rfl
      | exact h.lt_comp h1 h2
      | exact absurd h1 (by decide)
      | exact absurd h2 (by decide)
  · intro a b c h1
    cases a <;> cases b <;>
      simp only [cmpOpt] at h1 <;>
      first
      | exact absurd h1 (by decide)
      | (cases c <;> simp only [cmpOpt] <;> first | rfl | exact h.eq_subst _ h1)

/-- The full three-key `$sort` comparator is lawful. -/
theorem cmpOut_laws : CmpLaws cmpOut :=
  ((cmpOpt_laws cmpStr_laws).on_key fun r : OutRow => r.answer_text).then_comp
    (((cmpOpt_laws cmpInt_laws).on_key fun r : OutRow => r.answer.question_id).then_comp
      ((cmpOpt_laws cmpInt_laws).on_key fun r : OutRow => r.answer.answer_value))

/-! ## Sortedness and stability of the final sort (C7) -/

/-- The boolean comparator accepts exactly the non-strictly-greater pairs. -/
theorem leOut_eq_true_iff {r s : OutRow} :
    leOut r s = true ↔ cmpOut r s ≠ Ordering.gt := by
  unfold leOut
  cases h : cmpOut r s <;> simp [h] <;> decide

/-- The sort relation is transitive. -/
theorem leOutRel_trans {a b c : OutRow} (h1 : leOutRel a b) (h2 : leOutRel b c) :
    leOutRel a c :=
  leOut_eq_true_iff.mpr
    (cmpOut_laws.ne_gt_comp (leOut_eq_true_iff.mp h1) (leOut_eq_true_iff.mp h2))

/-- The sort relation is total. -/
theorem leOutRel_total (a b : OutRow) : leOutRel a b ∨ leOutRel b a :=
  (cmpOut_laws.ne_gt_total a b).imp leOut_eq_true_iff.mpr leOut_eq_true_iff.mpr

/-- Two rows tie exactly when the three-key comparison judges them equal. -/
theorem tieOut_iff {r s : OutRow} :
    tieOut r s = true ↔ cmpOut r s = Ordering.eq := by
  unfold tieOut
  rw [Bool.and_eq_true]
  constructor
  · rintro ⟨h1, h2⟩
    exact cmpOut_laws.eq_of_ne_gt_both (leOut_eq_true_iff.mp h1) (leOut_eq_true_iff.mp h2)
  · intro h
    refine ⟨leOut_eq_true_iff.mpr (by simp [h]), leOut_eq_true_iff.mpr ?_⟩
    have h2 : cmpOut s r = Ordering.eq := by
      rw [← cmpOut_laws.swap_eq, h]
      rfl
    simp [h2]

/-- Rows tying with a common row are non-strictly related. -/
theorem leOutRel_of_tie {x y z : OutRow} (hy : tieOut x y = true)
    (hz : tieOut x z = true) : leOutRel y z := by
  rw [tieOut_iff] at hy hz
  have hyx : cmpOut y x = Ordering.eq := by
    rw [← cmpOut_laws.swap_eq, hy]
    rfl
  refine leOut_eq_true_iff.mpr ?_
  rw [← cmpOut_laws.eq_subst z hyx, hz]
  simp

/-- Stability of the `$sort` stage: rows that tie on all three sort keys come
out in exactly their input order (the tie class of any row is preserved as a
subsequence). -/
theorem sortStage_filter_tie (l : List OutRow) (x : OutRow) :
    (sortStage l).filter (tieOut x) = l.filter (tieOut x) := by
  have hpairs : (l.filter (tieOut x)).Pairwise leOutRel := by
    apply List.pairwise_of_forall_mem_list
    intro y hy z hz
    exact leOutRel_of_tie (List.mem_filter.mp hy).2 (List.mem_filter.mp hz).2
  have hsub : List.Sublist (l.filter (tieOut x)) (sortStage l) :=
    List.sublist_insertionSort hpairs (List.filter_sublist l)
  have hsub2 : List.Sublist (l.filter (tieOut x)) ((sortStage l).filter (tieOut x)) := by
    have h2 := hsub.filter (tieOut x)
    rwa [List.filter_filter, List.filter_congr
      (fun a _ => by rw [Bool.and_self])] at h2
  have hperm : ((sortStage l).filter (tieOut x)).Perm (l.filter (tieOut x)) :=
    (List.perm_insertionSort leOutRel l).filter (tieOut x)
  exact (hsub2.eq_of_length hperm.length_eq.symm).symm

/-- The executable realisation of the `$sort` satisfies the documented
contract: its output is a permutation of the pre-sort rows, ascending by
the three keys. -/
theorem task31_satisfies_sortContract (db : DB) :
    sortContract (preSortRows (prunedDocs db) db.clientCriteria) (task_3_1 db) := by
  constructor
  · exact List.perm_insertionSort leOutRel _
  · haveI : IsTotal OutRow leOutRel := ⟨leOutRel_total⟩
    haveI : IsTrans OutRow leOutRel := ⟨fun _ _ _ => leOutRel_trans⟩
    exact List.sorted_insertionSort leOutRel _

/-! ## Independence from the group emission order -/

/-- The `$unwind "$answers"` stage is the flattening of the per-bucket
rows. -/
theorem unwindGroupAnswers_eq (bs : List GroupDoc) :
    unwindGroupAnswers bs = (bs.map bucketRows).flatten := by
  unfold unwindGroupAnswers
  rw [unwindBy_eq_flatMap, List.flatMap_def]
  rfl

/-- Every entry pushed into a bucket carries the bucket's key as its
`answer_value` (both are the row's `primary_answer_value`). -/
theorem groupStage_entries_key (rows : List Row3) :
    ∀ g ∈ groupStage rows, ∀ e ∈ g.answers, e.answer_value = g.key := by
  unfold groupStage
  refine foldl_groupFold_invariant
    (fun g => ∀ e ∈ g.answers, e.answer_value = g.key) rows [] (by simp) ?_ ?_
  · intro r _ e he
    rw [show (newGroup r).answers = [mkEntry r] from rfl, List.mem_singleton] at he
    rw [he]
    rfl
  · intro r _ g hg hk e he
    rcases List.mem_append.mp he with h | h
    · exact hg e h
    · rw [List.mem_singleton] at h
      rw [h]
      exact (eq_of_beq hk).symm

/-- Distinct buckets of the `$group` stage have distinct keys. -/
theorem groupStage_keys_pairwise (rows : List Row3) :
    (groupStage rows).Pairwise fun g g' => g.key ≠ g'.key := by
  unfold groupStage
  suffices h : ∀ (rs : List Row3) (acc : List GroupDoc),
      (acc.Pairwise fun g g' => g.key ≠ g'.key) →
      ((rs.foldl groupFold acc).Pairwise fun g g' => g.key ≠ g'.key) from
    h rows [] (by simp)
  intro rs
  induction rs with
  | nil => intro acc hacc; exact hacc
  | cons r rest ih =>
    intro acc hacc
    rw [List.foldl_cons]
    apply ih
    unfold groupFold
    by_cases hc : (acc.any fun g3 => g3.key == r.answer_pav) = true
    · rw [if_pos hc, List.pairwise_map]
      refine hacc.imp ?_
      intro g g' hne
      have k1 : (if g.key == r.answer_pav then pushRow r g else g).key = g.key := by
        split <;> rfl
      have k2 : (if g'.key == r.answer_pav then pushRow r g' else g').key = g'.key := by
        split <;> rfl
      rw [k1, k2]
      exact hne
    · rw [if_neg hc, List.pairwise_append]
      refine ⟨hacc, by simp, ?_⟩
      intro g hg g' hg'
      rw [List.mem_singleton] at hg'
      rw [hg']
      rw [Bool.not_eq_true, List.any_eq_false] at hc
      intro hkey
      exact hc g hg (by rw [show (newGroup r).key = r.answer_pav from rfl] at hkey; exact beq_of_eq hkey)

/-- Every output row contributed by a bucket carries the bucket key as its
third sort key. -/
theorem bucketRows_answer_value (rows : List Row3) (g : GroupDoc)
    (hg : g ∈ groupStage rows) :
    ∀ r ∈ bucketRows g, r.answer.answer_value = g.key := by
  intro r hr
  rcases List.mem_map.mp hr with ⟨e, he, rfl⟩
  exact groupStage_entries_key rows g hg e he

/-- The optional-integer comparison judges equal exactly the equal keys. -/
theorem cmpOptInt_eq_eq {a b : Option Int} :
    cmpOptInt a b = Ordering.eq ↔ a = b := by
  cases a <;> cases b <;> simp [cmpOptInt, cmpOpt, cmpInt_eq_eq]

/-- Tying rows agree on the third sort key. -/
theorem tie_answer_value {x y : OutRow} (h : tieOut x y = true) :
    y.answer.answer_value = x.answer.answer_value := by
  rw [tieOut_iff] at h
  unfold cmpOut at h
  rw [ordering_then_eq_eq] at h
  obtain ⟨-, h23⟩ := h
  rw [ordering_then_eq_eq] at h23
  exact (cmpOptInt_eq_eq.mp h23.2).symm

/-- Flattening ignores empty blocks. -/
theorem flatten_filter_nonempty {α : Type} :
    ∀ L : List (List α), L.flatten = (L.filter fun l => !l.isEmpty).flatten := by
  intro L
  induction L with
  | nil => rfl
  | cons l Ls ih =>
    cases l with
    | nil => simpa using ih
    | cons a as => simp [List.filter_cons, ih]

/-- Permutations of lists with at most one element are equalities. -/
theorem perm_eq_of_length_le_one {α : Type} {l l' : List α}
    (h : l.Perm l') (hlen : l.length ≤ 1) : l = l' := by
  match l, hlen with
  | [], _ => exact (h.symm.eq_nil).symm
  | [a], _ => exact (List.perm_singleton.mp h.symm).symm
  | a :: b :: t, hlen => simp only [List.length_cons] at hlen; omega

/-- A list in which no two elements both satisfy a predicate has at most one
element satisfying it. -/
theorem countP_le_one_of_pairwise {α : Type} (p : α → Bool) :
    ∀ l : List α, (l.Pairwise fun a b => ¬(p a = true ∧ p b = true)) →
      l.countP p ≤ 1 := by
  intro l
  induction l with
  | nil => intro _; simp
  | cons a t ih =>
    intro h
    rcases List.pairwise_cons.mp h with ⟨h1, h2⟩
    rw [List.countP_cons]
    by_cases hp : p a = true
    · have hz : t.countP p = 0 :=
        List.countP_eq_zero.mpr fun b hb hpb => h1 b hb ⟨hp, hpb⟩
      rw [hz]
      simp [hp]
    · have := ih h2
      simp [hp]
      omega

/-- Rows tying with a fixed row live in at most one bucket (the one whose key
is that row's third sort key), so the tie classes of the unwound stream do
not depend on the order in which the store emits the `$group` buckets. -/
theorem filter_tie_buckets_perm (rows : List Row3) {bs : List GroupDoc}
    (hperm : bs.Perm (groupStage rows)) (x : OutRow) :
    (unwindGroupAnswers bs).filter (tieOut x) =
      (unwindGroupAnswers (groupStage rows)).filter (tieOut x) := by
  rw [unwindGroupAnswers_eq, unwindGroupAnswers_eq, List.filter_flatten,
    List.filter_flatten, List.map_map, List.map_map]
  simp only [Function.comp_def]
  rw [flatten_filter_nonempty (bs.map fun g => (bucketRows g).filter (tieOut x)),
    flatten_filter_nonempty
      ((groupStage rows).map fun g => (bucketRows g).filter (tieOut x))]
  congr 1
  have hkey : ∀ g ∈ groupStage rows, (bucketRows g).filter (tieOut x) ≠ [] →
      g.key = x.answer.answer_value := by
    intro g hg hne
    rcases List.exists_mem_of_ne_nil _ hne with ⟨r, hr⟩
    rcases List.mem_filter.mp hr with ⟨hrb, hrt⟩
    rw [← bucketRows_answer_value rows g hg r hrb]
    exact tie_answer_value hrt
  have hpw : (((groupStage rows).map fun g => (bucketRows g).filter (tieOut x)).Pairwise
      fun l l' => ¬((!l.isEmpty) = true ∧ (!l'.isEmpty) = true)) := by
    rw [List.pairwise_map]
    refine (groupStage_keys_pairwise rows).imp_of_mem ?_
    intro g g' hgm hgm' hne hboth
    rcases hboth with ⟨hne1, hne2⟩
    simp only [Bool.not_eq_true', List.isEmpty_eq_false] at hne1 hne2
    exact hne ((hkey g hgm hne1).trans (hkey g' hgm' hne2).symm)
  have hlen : (((groupStage rows).map fun g => (bucketRows g).filter (tieOut x)).filter
      fun l => !l.isEmpty).length ≤ 1 := by
    rw [← List.countP_eq_length_filter]
    exact countP_le_one_of_pairwise _ _ hpw
  have hp2 : ((bs.map fun g => (bucketRows g).filter (tieOut x)).filter
        fun l => !l.isEmpty).Perm
      (((groupStage rows).map fun g => (bucketRows g).filter (tieOut x)).filter
        fun l => !l.isEmpty) :=
    (hperm.map _).filter _
  exact perm_eq_of_length_le_one hp2 (by rw [hp2.length_eq]; exact hlen)

/-- Two sorted lists that are permutations of one another and agree on every
tie class (as subsequences) are equal: sortedness places the classes, the
class subsequences order their members. -/
theorem eq_of_sorted_perm_tie_filters :
    ∀ (s t : List OutRow), s.Perm t → s.Pairwise leOutRel → t.Pairwise leOutRel →
      (∀ x, s.filter (tieOut x) = t.filter (tieOut x)) → s = t := by
  intro s
  induction s with
  | nil =>
    intro t hp _ _ _
    exact (hp.symm.eq_nil).symm
  | cons a s1 ih =>
    intro t hp hs ht hf
    cases t with
    | nil => exact absurd hp.eq_nil (List.cons_ne_nil a s1)
    | cons b t1 =>
      have hab : tieOut a b = true := by
        by_cases heq : a = b
        · rw [heq, tieOut_iff]
          exact cmpOut_laws.refl_eq b
        · have hat : a ∈ b :: t1 := hp.mem_iff.mp (List.mem_cons_self a s1)
          have hbt : b ∈ a :: s1 := hp.mem_iff.mpr (List.mem_cons_self b t1)
          have h1 : leOutRel b a := by
            rcases List.mem_cons.mp hat with h | h
            · exact absurd h heq
            · exact List.rel_of_sorted_cons ht a h
          have h2 : leOutRel a b := by
            rcases List.mem_cons.mp hbt with h | h
            · exact absurd h.symm heq
            · exact List.rel_of_sorted_cons hs b h
          unfold tieOut
          rw [Bool.and_eq_true]
          exact ⟨h2, h1⟩
      have hta : tieOut a a = true := by
        rw [tieOut_iff]
        exact cmpOut_laws.refl_eq a
      have hfa := hf a
      rw [List.filter_cons, List.filter_cons, if_pos hta, if_pos hab] at hfa
      injection hfa with hab2 htails
      subst hab2
      congr 1
      refine ih t1 hp.cons_inv hs.of_cons ht.of_cons ?_
      intro x
      have hfx := hf x
      rw [List.filter_cons, List.filter_cons] at hfx
      by_cases hxa : tieOut x a = true
      · rw [if_pos hxa, if_pos hxa] at hfx
        simpa using hfx
      · rw [if_neg hxa, if_neg hxa] at hfx
        exact hfx

/-- The sorted output does not depend on the order in which the store emits
the `$group` buckets: for any permutation of the buckets, sorting the
unwound rows yields exactly `task_3_1 db` (tie classes never cross buckets,
and bucket-internal order is the deterministic `$push` order). -/
theorem sortStage_eq_of_buckets_perm (db : DB) (buckets : List GroupDoc)
    (hperm : buckets.Perm (groupsOf (prunedDocs db) db.clientCriteria)) :
    sortStage (unwindGroupAnswers buckets) = task_3_1 db := by
  have hpermU : (unwindGroupAnswers buckets).Perm
      (unwindGroupAnswers (groupsOf (prunedDocs db) db.clientCriteria)) := by
    rw [unwindGroupAnswers_eq, unwindGroupAnswers_eq]
    exact (hperm.map bucketRows).flatten
  haveI : IsTotal OutRow leOutRel := ⟨leOutRel_total⟩
  haveI : IsTrans OutRow leOutRel := ⟨fun _ _ _ => leOutRel_trans⟩
  apply eq_of_sorted_perm_tie_filters
  · exact ((List.perm_insertionSort leOutRel _).trans hpermU).trans
      (List.perm_insertionSort leOutRel _).symm
  · exact List.sorted_insertionSort leOutRel _
  · exact List.sorted_insertionSort leOutRel _
  · intro x
    rw [show task_3_1 db =
        sortStage (unwindGroupAnswers (groupsOf (prunedDocs db) db.clientCriteria))
      from rfl]
    rw [sortStage_filter_tie, sortStage_filter_tie]
    exact filter_tie_buckets_perm (rowsResolved (prunedDocs db) db.clientCriteria)
      hperm x

/-! ## Ordering and determinism against the sort contract (C7, C8) -/

/-- C7 counterexample: the store's sort contract does not guarantee
stability.  On `dbTie` the stream entering the `$sort` holds two distinct
rows tying on all three sort keys; reversing them is also an admissible
`$sort` output, and it does not keep the tie class in input order. -/
theorem sort_tie_order_not_guaranteed_cex :
    sortContract (preSortRows (prunedDocs dbTie) dbTie.clientCriteria)
      ((preSortRows (prunedDocs dbTie) dbTie.clientCriteria).reverse) ∧
    ¬(∀ out, sortContract (preSortRows (prunedDocs dbTie) dbTie.clientCriteria) out →
        ∀ x, out.filter (tieOut x) =
          (preSortRows (prunedDocs dbTie) dbTie.clientCriteria).filter (tieOut x)) := by
  have hc : sortContract (preSortRows (prunedDocs dbTie) dbTie.clientCriteria)
      ((preSortRows (prunedDocs dbTie) dbTie.clientCriteria).reverse) :=
    ⟨by decide, by decide⟩
  refine ⟨hc, fun hall => ?_⟩
  have heq := eq_of_sorted_perm_tie_filters
    ((preSortRows (prunedDocs dbTie) dbTie.clientCriteria).reverse)
    (preSortRows (prunedDocs dbTie) dbTie.clientCriteria)
    (by decide) (by decide) (by decide)
    (hall _ hc)
  exact absurd heq (by decide)

/-- C7 amended: the final result sequence is ordered ascending by
`answer_text`, then `answers.question_id`, then `answers.answer_value`, and
is a permutation of the rows entering the `$sort`; the relative order of
rows that tie on all three keys is left unspecified by the store's sort
contract, so stability is not a guarantee of the program (the
counterexample shows the contract admits a tie-reordering output). -/
theorem task31_sorted_ascending (db : DB) :
    List.Sorted leOutRel (task_3_1 db) ∧
    (task_3_1 db).Perm (preSortRows (prunedDocs db) db.clientCriteria) :=
  ⟨(task31_satisfies_sortContract db).2, (task31_satisfies_sortContract db).1⟩

/-- C8 counterexample: re-running is not guaranteed byte-identical.  On
`dbTie` both the pre-sort stream order and its reversal are admissible
`$sort` outputs of the same unchanged snapshot, and they differ. -/
theorem rerun_not_byte_identical_cex :
    sortContract (preSortRows (prunedDocs dbTie) dbTie.clientCriteria)
      (preSortRows (prunedDocs dbTie) dbTie.clientCriteria) ∧
    sortContract (preSortRows (prunedDocs dbTie) dbTie.clientCriteria)
      ((preSortRows (prunedDocs dbTie) dbTie.clientCriteria).reverse) ∧
    (preSortRows (prunedDocs dbTie) dbTie.clientCriteria).reverse ≠
      preSortRows (prunedDocs dbTie) dbTie.clientCriteria :=
  ⟨⟨by decide, by decide⟩, ⟨by decide, by decide⟩, by decide⟩

/-- C8 amended: the pipeline output is deterministic up to the store's
unspecified tie order.  Any two admissible `$sort` outputs of the same
snapshot that order each tie class alike are identical; the output does not
depend on the `$group` bucket emission order; and when no two distinct rows
reaching the `$sort` tie on all three keys, EVERY admissible output equals
`task_3_1 db`, so re-running is byte-identical. -/
theorem task31_deterministic_up_to_ties (db : DB) :
    (∀ out1 out2,
        sortContract (preSortRows (prunedDocs db) db.clientCriteria) out1 →
        sortContract (preSortRows (prunedDocs db) db.clientCriteria) out2 →
        (∀ x, out1.filter (tieOut x) = out2.filter (tieOut x)) →
        out1 = out2) ∧
    (∀ buckets : List GroupDoc,
        buckets.Perm (groupsOf (prunedDocs db) db.clientCriteria) →
        sortStage (unwindGroupAnswers buckets) = task_3_1 db) ∧
    (∀ out, sortContract (preSortRows (prunedDocs db) db.clientCriteria) out →
        (∀ x ∈ preSortRows (prunedDocs db) db.clientCriteria,
          ∀ y ∈ preSortRows (prunedDocs db) db.clientCriteria,
            tieOut x y = true → x = y) →
        out = task_3_1 db) := by
  refine ⟨?_, ?_, ?_⟩
  · intro out1 out2 h1 h2 hf
    exact eq_of_sorted_perm_tie_filters out1 out2 (h1.1.trans h2.1.symm) h1.2 h2.2 hf
  · intro buckets hperm
    exact sortStage_eq_of_buckets_perm db buckets hperm
  · intro out hc htf
    have htask := task31_satisfies_sortContract db
    apply eq_of_sorted_perm_tie_filters out (task_3_1 db)
      (hc.1.trans htask.1.symm) hc.2 htask.2
    intro x
    by_cases hemp :
        (preSortRows (prunedDocs db) db.clientCriteria).filter (tieOut x) = []
    · have e1 : out.filter (tieOut x) = [] := by
        refine List.Perm.eq_nil ?_
        rw [← hemp]
        exact hc.1.filter (tieOut x)
      have e2 : (task_3_1 db).filter (tieOut x) = [] := by
        refine List.Perm.eq_nil ?_
        rw [← hemp]
        exact htask.1.filter (tieOut x)
      rw [e1, e2]
    · obtain ⟨y0, hy0⟩ := List.exists_mem_of_ne_nil _ hemp
      rcases List.mem_filter.mp hy0 with ⟨hy0S, hy0t⟩
      have hall : ∀ l : List OutRow,
          l.Perm (preSortRows (prunedDocs db) db.clientCriteria) →
          ∀ a ∈ l.filter (tieOut x), a = y0 := by
        intro l hl a ha
        rcases List.mem_filter.mp ha with ⟨haL, hat⟩
        have haS : a ∈ preSortRows (prunedDocs db) db.clientCriteria :=
          hl.mem_iff.mp haL
        refine htf a haS y0 hy0S ?_
        unfold tieOut
        rw [Bool.and_eq_true]
        exact ⟨leOutRel_of_tie hat hy0t, leOutRel_of_tie hy0t hat⟩
      have hlen : (out.filter (tieOut x)).length =
          ((task_3_1 db).filter (tieOut x)).length := by
        rw [(hc.1.filter (tieOut x)).length_eq, (htask.1.filter (tieOut x)).length_eq]
      rw [List.eq_replicate_of_mem (hall out hc.1),
        List.eq_replicate_of_mem (hall (task_3_1 db) htask.1), hlen]

/-- C8 witness: reversing the bucket emission order of `dbTwoGroups` leaves
the output unchanged, and on the tie-free snapshot `dbSingleAnswers` the
admissible pre-sort stream itself must equal the pipeline output. -/
theorem task31_deterministic_up_to_ties_witness :
    (sortStage (unwindGroupAnswers
        ((groupsOf (prunedDocs dbTwoGroups) dbTwoGroups.clientCriteria).reverse)) =
      task_3_1 dbTwoGroups) ∧
    (preSortRows (prunedDocs dbSingleAnswers) dbSingleAnswers.clientCriteria =
      task_3_1 dbSingleAnswers) :=
  ⟨(task31_deterministic_up_to_ties dbTwoGroups).2.1 _ (List.reverse_perm _),
   (task31_deterministic_up_to_ties dbSingleAnswers).2.2 _
     ⟨by decide, by decide⟩ (by decide)⟩
